import Mathlib

/-!
Verification development for the stylus-trace vending-machine repository.

It shallowly embeds the example Stylus contract (`src/lib.rs`), the CLI
surface of the profiler (`bin/stylus-trace/src/main.rs`), and the
profile-construction / diff engine that the CLI drives.  The engine itself
lives in the `stylus_trace_studio` library, which is not part of the visible
sources; its definitions below are modelled from the specification and are
marked as such in their doc comments.  Machine integers are embedded as `Nat`
with explicit reduction modulo `2 ^ 256` where the Rust code wraps, and
percentages are embedded as exact rationals.
-/

/-- 2^256, the modulus of the 256-bit unsigned integers (`U256`) used by the
contract's storage values. -/
def U256_MOD : Nat := 2 ^ 256

/-- The largest 256-bit unsigned integer, `U256::MAX`. -/
def U256_MAX : Nat := 2 ^ 256 - 1

/-- Storage of the `VendingMachine` contract (`sol_storage!` block in
`src/lib.rs`): two `address => uint256` mappings.  Addresses are embedded as
`Nat`; stored words are `Nat` values reduced modulo `2 ^ 256` whenever the
contract computes with them. -/
structure VendingMachine where
  cupcake_balances : Nat → Nat
  cupcake_distribution_times : Nat → Nat

/-- The accumulator computed by the gas-burning loop at the top of
`give_cupcake_to`: `acc` starts at `U256::ZERO` and performs twenty
`wrapping_add`s of the caller's stored balance, so it equals
`20 * b mod 2 ^ 256`. -/
def cupcakeAcc (b : Nat) : Nat := (20 * b) % U256_MOD

/-- Embedding of `VendingMachine::give_cupcake_to` from `src/lib.rs`.
`block_timestamp` is the `u64` returned by `block::timestamp()` (reduced
modulo `2 ^ 64`); `U256` addition wraps modulo `2 ^ 256` (release-mode
semantics of the `alloy` 256-bit integers).  Returns the updated storage and
the contract's boolean result. -/
def give_cupcake_to (s : VendingMachine) (block_timestamp : Nat) (user_address : Nat) :
    VendingMachine × Bool :=
  let acc := cupcakeAcc (s.cupcake_balances user_address)
  if acc = U256_MAX then (s, false)
  else
    let last_distribution := s.cupcake_distribution_times user_address
    let next_available := (last_distribution + 5) % U256_MOD
    let current_time := block_timestamp % 2 ^ 64
    if next_available ≤ current_time then
      let balance := (s.cupcake_balances user_address + 1) % U256_MOD
      ({ cupcake_balances := fun a => if a = user_address then balance else s.cupcake_balances a
         cupcake_distribution_times := fun a =>
           if a = user_address then current_time else s.cupcake_distribution_times a },
        true)
    else
      (s, false)

/-- Embedding of `VendingMachine::get_cupcake_balance_for` from `src/lib.rs`. -/
def get_cupcake_balance_for (s : VendingMachine) (user_address : Nat) : Nat :=
  s.cupcake_balances user_address

theorem cupcakeAcc_mod_four (b : Nat) : cupcakeAcc b % 4 = 0 := by
  unfold cupcakeAcc U256_MOD
  rw [Nat.mod_mod_of_dvd _ (by norm_num : (4 : ℕ) ∣ 2 ^ 256)]
  omega

/-- C9: the wrapping 20-fold sum of any stored balance is divisible by 4
modulo `2 ^ 256`, while `U256::MAX` is congruent to 3 modulo 4, so the
accumulator can never equal `U256::MAX` and the early `return false` guard in
`give_cupcake_to` is unreachable. -/
theorem cupcakeAcc_ne_U256_MAX (b : Nat) : cupcakeAcc b ≠ U256_MAX := by
  intro h
  have h4 := cupcakeAcc_mod_four b
  rw [h] at h4
  have hmax : U256_MAX % 4 = 3 := by unfold U256_MAX; norm_num
  omega

/-- C8: when the current block timestamp is strictly below the caller's
stored distribution time plus 5 (computed with wrapping `U256` addition, as
the contract does), `give_cupcake_to` returns `false` and leaves the storage
— both mappings, at every address — unchanged. -/
theorem give_cupcake_to_too_early (s : VendingMachine) (block_timestamp user_address : Nat)
    (h : block_timestamp % 2 ^ 64 <
      (s.cupcake_distribution_times user_address + 5) % U256_MOD) :
    give_cupcake_to s block_timestamp user_address = (s, false) := by
  unfold give_cupcake_to
  dsimp only
  split
  · rfl
  · split
    · omega
    · rfl

/-- Witness for C8 at a concrete state: every balance 0, every distribution
time 10, timestamp 3. -/
theorem give_cupcake_to_too_early_witness :
    ((3 : Nat) % 2 ^ 64 <
        ((VendingMachine.mk (fun _ => 0) (fun _ => 10)).cupcake_distribution_times 0 + 5)
          % U256_MOD) ∧
      give_cupcake_to (VendingMachine.mk (fun _ => 0) (fun _ => 10)) 3 0 =
        (VendingMachine.mk (fun _ => 0) (fun _ => 10), false) := by
  refine ⟨?_, give_cupcake_to_too_early _ _ _ ?_⟩ <;>
    · show (3 : Nat) % 2 ^ 64 < 15 % U256_MOD
      unfold U256_MOD
      norm_num

/-- A Unix-style path as the Rust `Path`/`PathBuf` operations used by the CLI
observe it: an absoluteness flag plus the list of normal components (the
normalization that `Path::components`, `Path::parent` and `Path::join` apply
ignores duplicate and trailing separators). -/
structure RPath where
  absolute : Bool
  components : List String
deriving DecidableEq

/-- `Path::parent`: the path minus its final component; `none` when the path
terminates in a root or is empty. -/
def RPath.parent (p : RPath) : Option RPath :=
  if p.components.isEmpty then none else some ⟨p.absolute, p.components.dropLast⟩

/-- `Path::as_os_str().is_empty()`: only the empty relative path has an empty
underlying string. -/
def RPath.osStrEmpty (p : RPath) : Bool := !p.absolute && p.components.isEmpty

/-- `Path::join` (`PathBuf::push`): joining an absolute path replaces the
receiver, otherwise the components are appended. -/
def RPath.join (p q : RPath) : RPath :=
  if q.absolute then q else ⟨p.absolute, p.components ++ q.components⟩

/-- Splits a character list on `'/'`, accumulating the current component. -/
def splitSlashAux : List Char → List Char → List String
  | [], acc => [String.mk acc.reverse]
  | ch :: rest, acc =>
    if ch = '/' then String.mk acc.reverse :: splitSlashAux rest []
    else splitSlashAux rest (ch :: acc)

/-- Parses a Rust path string into its `RPath` view: it is absolute iff it
starts with a separator, and its components are the nonempty chunks between
separators. -/
def pathOfString (s : String) : RPath :=
  { absolute := match s.toList with
      | '/' :: _ => true
      | _ => false
    components := (splitSlashAux s.toList []).filter (fun comp => comp ≠ "") }

/-- The guard of `resolve_artifact_path`:
`path.parent().map(|p| p.as_os_str().is_empty()).unwrap_or(true)`. -/
def isSimpleFilename (path : RPath) : Bool :=
  (path.parent.map RPath.osStrEmpty).getD true

/-- Embedding of `resolve_artifact_path` from `bin/stylus-trace/src/main.rs`:
a simple filename is placed under `artifacts/<category>/`, any other path is
returned unchanged. -/
def resolve_artifact_path (path : RPath) (category : String) : RPath :=
  if isSimpleFilename path then
    ((pathOfString "artifacts").join (pathOfString category)).join path
  else path

theorem stringMk_ne_empty (l : List Char) (h : l ≠ []) : String.mk l ≠ "" := by
  intro he
  exact h (congrArg String.data he)

theorem splitSlashAux_filter_ne_nil (l : List Char) (acc : List Char) (h : acc ≠ []) :
    (splitSlashAux l acc).filter (fun comp => comp ≠ "") ≠ [] := by
  induction l generalizing acc with
  | nil =>
    have hne : String.mk acc.reverse ≠ "" := stringMk_ne_empty _ (by simpa using h)
    simp [splitSlashAux, List.filter_cons, hne]
  | cons ch rest ih =>
    by_cases hch : ch = '/'
    · subst hch
      have hne : String.mk acc.reverse ≠ "" := stringMk_ne_empty _ (by simpa using h)
      simp [splitSlashAux, List.filter_cons, hne]
    · simp only [splitSlashAux, if_neg hch]
      exact ih (ch :: acc) (by simp)

theorem pathOfString_trivial (c : String)
    (habs : (pathOfString c).absolute = false)
    (hcs : (pathOfString c).components = []) : c = "" := by
  rcases hl : c.data with _ | ⟨ch, rest⟩
  · have hmk : String.mk c.data = String.mk [] := by rw [hl]
    have hc : c = String.mk [] := by cases c; exact hmk
    rw [hc]
  · exfalso
    by_cases hch : ch = '/'
    · subst hch
      simp [pathOfString, String.toList, hl] at habs
    · have hcs' : (splitSlashAux (ch :: rest) []).filter (fun comp => comp ≠ "") = [] := by
        simpa [pathOfString, String.toList, hl] using hcs
      rw [splitSlashAux, if_neg hch] at hcs'
      exact splitSlashAux_filter_ne_nil rest [ch] (by simp) hcs'

theorem pathOfString_artifacts : pathOfString "artifacts" = ⟨false, ["artifacts"]⟩ := by
  decide

theorem isSimpleFilename_nil (abs : Bool) : isSimpleFilename ⟨abs, []⟩ = true := by
  simp [isSimpleFilename, RPath.parent]

theorem isSimpleFilename_single (abs : Bool) (x : String) :
    isSimpleFilename ⟨abs, [x]⟩ = !abs := by
  cases abs <;> simp [isSimpleFilename, RPath.parent, RPath.osStrEmpty]

theorem isSimpleFilename_long (abs : Bool) (a b : String) (t : List String) :
    isSimpleFilename ⟨abs, a :: b :: t⟩ = false := by
  simp [isSimpleFilename, RPath.parent, RPath.osStrEmpty, List.dropLast_cons₂]

theorem resolve_artifact_path_absolute (cs : List String) (c : String) :
    resolve_artifact_path ⟨true, cs⟩ c = ⟨true, cs⟩ := by
  rcases cs with _ | ⟨a, _ | ⟨b, t⟩⟩
  · simp [resolve_artifact_path, isSimpleFilename_nil, RPath.join]
  · simp [resolve_artifact_path, isSimpleFilename_single]
  · simp [resolve_artifact_path, isSimpleFilename_long]

/-- C10 (amended): `resolve_artifact_path` is idempotent for every path and
category except the degenerate pair of an empty path and an empty category
string. -/
theorem resolve_artifact_path_idem (p : RPath) (c : String)
    (h : ¬(p = RPath.mk false [] ∧ c = "")) :
    resolve_artifact_path (resolve_artifact_path p c) c = resolve_artifact_path p c := by
  rcases p with ⟨pabs, pcs⟩
  cases pabs
  case true =>
    rw [resolve_artifact_path_absolute, resolve_artifact_path_absolute]
  case false =>
    by_cases hg : isSimpleFilename ⟨false, pcs⟩ = true
    case neg => simp [resolve_artifact_path, hg]
    case pos =>
      by_cases hca : (pathOfString c).absolute = true
      · have h1 : resolve_artifact_path ⟨false, pcs⟩ c =
            ⟨true, (pathOfString c).components ++ pcs⟩ := by
          rw [resolve_artifact_path, if_pos hg]
          simp [RPath.join, hca]
        rw [h1, resolve_artifact_path_absolute]
      · have hca' : (pathOfString c).absolute = false := by
          simpa using hca
        have hne : (pathOfString c).components ++ pcs ≠ [] := by
          intro h0
          rcases List.append_eq_nil.mp h0 with ⟨hc1, hp1⟩
          exact h ⟨by rw [hp1], pathOfString_trivial c hca' hc1⟩
        rcases he : (pathOfString c).components ++ pcs with _ | ⟨a, t⟩
        · exact absurd he hne
        · have h1 : resolve_artifact_path ⟨false, pcs⟩ c =
              ⟨false, "artifacts" :: a :: t⟩ := by
            rw [resolve_artifact_path, if_pos hg]
            simp [RPath.join, hca', pathOfString_artifacts, he]
          rw [h1, resolve_artifact_path, isSimpleFilename_long]
          simp

/-- C10 counterexample: on the empty path with the empty category string,
`resolve_artifact_path` is not idempotent — one application yields
`artifacts`, a second application yields `artifacts/artifacts`. -/
theorem resolve_artifact_path_not_idem :
    resolve_artifact_path (resolve_artifact_path ⟨false, []⟩ "") "" ≠
      resolve_artifact_path ⟨false, []⟩ "" := by
  decide

/-- Witness for the amended C10 at a concrete input: the single filename
`profile.json` with category `capture` resolves to
`artifacts/capture/profile.json`, and resolving again leaves it unchanged. -/
theorem resolve_artifact_path_idem_witness :
    ¬(RPath.mk false ["profile.json"] = RPath.mk false [] ∧ "capture" = "") ∧
      resolve_artifact_path (resolve_artifact_path ⟨false, ["profile.json"]⟩ "capture")
          "capture" =
        resolve_artifact_path ⟨false, ["profile.json"]⟩ "capture" :=
  ⟨by decide, resolve_artifact_path_idem ⟨false, ["profile.json"]⟩ "capture" (by decide)⟩

/-- Modelled from the spec: `FlamegraphConfig`, defined in the
`stylus_trace_studio::flamegraph` module that is not among the visible
sources.  The specification describes the renderer's configuration bundle as
`{ink: bool, title: optional string, width: integer pixels}`. -/
structure FlamegraphConfig where
  ink : Bool
  title : Option String
  width : Nat
deriving DecidableEq

/-- Modelled from the spec: `FlamegraphConfig::new()`, the default bundle
(width defaults to the CLI default of 1200 pixels; `handle_capture` always
overwrites it). -/
def FlamegraphConfig.new : FlamegraphConfig :=
  { ink := false, title := none, width := 1200 }

/-- Modelled from the spec: the `with_ink` builder method. -/
def FlamegraphConfig.with_ink (c : FlamegraphConfig) (b : Bool) : FlamegraphConfig :=
  { c with ink := b }

/-- Modelled from the spec: the `with_title` builder method. -/
def FlamegraphConfig.with_title (c : FlamegraphConfig) (t : String) : FlamegraphConfig :=
  { c with title := t }

/-- The payload of the `Capture` variant of `Commands` in
`bin/stylus-trace/src/main.rs`, with `f64` threshold flags embedded as exact
rationals. -/
structure CaptureOpts where
  rpc : String
  tx : String
  output : RPath
  flamegraph : Option RPath
  top_paths : Nat
  title : Option String
  width : Nat
  summary : Bool
  ink : Bool
  tracer : Option String
  baseline : Option RPath
  threshold_percent : Option ℚ
  gas_threshold : Option ℚ
  hostio_threshold : Option ℚ

/-- Embedding of `DiffSubArgs` from `bin/stylus-trace/src/main.rs`. -/
structure DiffSubArgs where
  baseline : RPath
  target : RPath
  threshold : Option RPath
  threshold_percent : Option ℚ
  gas_threshold : Option ℚ
  hostio_threshold : Option ℚ
  summary : Bool
  output : Option RPath
  flamegraph : Option RPath

/-- Embedding of the `Commands` subcommand enum from
`bin/stylus-trace/src/main.rs`: exactly the five CLI subcommands. -/
inductive Commands where
  | capture (opts : CaptureOpts)
  | diff (args : DiffSubArgs)
  | validate (file : RPath)
  | schema (showFull : Bool)
  | version

/-- The clap subcommand name of each `Commands` variant. -/
def commandName : Commands → String
  | .capture _ => "capture"
  | .diff _ => "diff"
  | .validate _ => "validate"
  | .schema _ => "schema"
  | .version => "version"

/-- Embedding of `CaptureArgs` from `stylus_trace_studio::commands`, with the
fields `handle_capture` fills in. -/
structure CaptureArgs where
  rpc_url : String
  transaction_hash : String
  output_json : RPath
  output_svg : Option RPath
  top_paths : Nat
  flamegraph_config : Option FlamegraphConfig
  print_summary : Bool
  tracer : Option String
  ink : Bool
  baseline : Option RPath
  threshold_percent : Option ℚ
  gas_threshold : Option ℚ
  hostio_threshold : Option ℚ
  wasm : Option RPath

/-- Embedding of `stylus_trace_studio::commands::models::DiffArgs`, with the
fields `handle_diff` fills in. -/
structure DiffArgs where
  baseline : RPath
  target : RPath
  threshold_file : Option RPath
  threshold_percent : Option ℚ
  summary : Bool
  output : Option RPath
  output_svg : Option RPath
  gas_threshold : Option ℚ
  hostio_threshold : Option ℚ

/-- The argument-assembly part of `handle_capture` from
`bin/stylus-trace/src/main.rs`: artifact-path resolution, flamegraph
configuration, and construction of `CaptureArgs`. -/
def handle_capture_args (o : CaptureOpts) : CaptureArgs :=
  let output := resolve_artifact_path o.output "capture"
  let flamegraph := o.flamegraph.map (fun p => resolve_artifact_path p "capture")
  let baseline := o.baseline.map (fun p => resolve_artifact_path p "capture")
  let flamegraph_config := flamegraph.map (fun _ =>
    let config := FlamegraphConfig.new.with_ink o.ink
    let config := { config with width := o.width }
    match o.title with
    | some t => config.with_title t
    | none => config)
  { rpc_url := o.rpc
    transaction_hash := o.tx
    output_json := output
    output_svg := flamegraph
    top_paths := o.top_paths
    flamegraph_config := flamegraph_config
    print_summary := o.summary
    tracer := o.tracer
    ink := o.ink
    baseline := baseline
    threshold_percent := o.threshold_percent
    gas_threshold := o.gas_threshold
    hostio_threshold := o.hostio_threshold
    wasm := none }

/-- The argument-assembly part of `handle_diff` from
`bin/stylus-trace/src/main.rs`: path resolution and construction of
`DiffArgs`. -/
def handle_diff_args (a : DiffSubArgs) : DiffArgs :=
  { baseline := resolve_artifact_path a.baseline "capture"
    target := resolve_artifact_path a.target "capture"
    threshold_file := a.threshold
    threshold_percent := a.threshold_percent
    summary := a.summary
    output := a.output.map (fun p => resolve_artifact_path p "diff")
    output_svg := a.flamegraph.map (fun p => resolve_artifact_path p "diff")
    gas_threshold := a.gas_threshold
    hostio_threshold := a.hostio_threshold }

/-- The action the `main` dispatch performs for a parsed command. -/
inductive CliAction where
  | executeCapture (args : CaptureArgs)
  | executeDiff (args : DiffArgs)
  | validateProfileFile (file : RPath)
  | displaySchema (showFull : Bool)
  | displayVersion

/-- Embedding of the `match cli.command` dispatch in `main` from
`bin/stylus-trace/src/main.rs`. -/
def dispatchCommand : Commands → CliAction
  | .capture o => .executeCapture (handle_capture_args o)
  | .diff d => .executeDiff (handle_diff_args d)
  | .validate f => .validateProfileFile f
  | .schema s => .displaySchema s
  | .version => .displayVersion

/-- C6: the CLI exposes exactly the five subcommands `capture`, `diff`,
`validate`, `schema`, `version` — every command bears one of these five
names, every one of the five names is realized — and the dispatch sends
`capture` to profile capture (with an optional baseline for inline diffing),
`diff` to the comparison of two persisted profiles, and `validate` to the
profile schema check. -/
theorem commands_surface :
    (∀ cmd : Commands, commandName cmd ∈ ["capture", "diff", "validate", "schema", "version"]) ∧
      (∀ n ∈ ["capture", "diff", "validate", "schema", "version"],
        ∃ cmd : Commands, commandName cmd = n) ∧
      (∀ o : CaptureOpts, dispatchCommand (Commands.capture o) =
        CliAction.executeCapture (handle_capture_args o) ∧
        (handle_capture_args o).baseline =
          o.baseline.map (fun p => resolve_artifact_path p "capture")) ∧
      (∀ d : DiffSubArgs, dispatchCommand (Commands.diff d) =
        CliAction.executeDiff (handle_diff_args d) ∧
        (handle_diff_args d).baseline = resolve_artifact_path d.baseline "capture" ∧
        (handle_diff_args d).target = resolve_artifact_path d.target "capture") ∧
      (∀ f : RPath, dispatchCommand (Commands.validate f) = CliAction.validateProfileFile f) := by
  refine ⟨?_, ?_, ?_, ?_, ?_⟩
  · intro cmd
    cases cmd <;> simp [commandName]
  · intro n hn
    simp only [List.mem_cons, List.not_mem_nil, or_false] at hn
    rcases hn with rfl | rfl | rfl | rfl | rfl
    · exact ⟨.capture ⟨"", "", ⟨false, []⟩, none, 0, none, 0, false, false, none, none,
        none, none, none⟩, rfl⟩
    · exact ⟨.diff ⟨⟨false, []⟩, ⟨false, []⟩, none, none, none, none, false, none, none⟩, rfl⟩
    · exact ⟨.validate ⟨false, []⟩, rfl⟩
    · exact ⟨.schema false, rfl⟩
    · exact ⟨.version, rfl⟩
  · exact fun o => ⟨rfl, rfl⟩
  · exact fun d => ⟨rfl, rfl, rfl⟩
  · exact fun f => rfl

/-- Witness for C6: the five names at concrete commands. -/
theorem commands_surface_witness :
    commandName Commands.version ∈ ["capture", "diff", "validate", "schema", "version"] ∧
      ∃ cmd : Commands, commandName cmd = "capture" :=
  ⟨commands_surface.1 Commands.version, commands_surface.2.1 "capture" (by simp)⟩

/-- C7: whenever a flamegraph output is requested, `handle_capture` hands the
renderer a configuration bundle consisting exactly of the CLI's `--ink`
boolean, optional `--title` string, and `--width` pixel count; when no
flamegraph is requested, no configuration is built. -/
theorem flamegraph_config_bundle (o : CaptureOpts) (p : RPath)
    (hp : o.flamegraph = some p) :
    (handle_capture_args o).flamegraph_config =
      some { ink := o.ink, title := o.title, width := o.width } := by
  cases ht : o.title <;>
    simp [handle_capture_args, hp, ht, FlamegraphConfig.new, FlamegraphConfig.with_ink,
      FlamegraphConfig.with_title]

/-- Witness for C7 at concrete capture options requesting a flamegraph. -/
theorem flamegraph_config_bundle_witness :
    (CaptureOpts.mk "r" "t" ⟨false, ["p"]⟩ (some ⟨false, ["f"]⟩) 20 (some "T") 800 false true
        none none none none none).flamegraph = some ⟨false, ["f"]⟩ ∧
      (handle_capture_args
          (CaptureOpts.mk "r" "t" ⟨false, ["p"]⟩ (some ⟨false, ["f"]⟩) 20 (some "T") 800 false
            true none none none none none)).flamegraph_config =
        some { ink := true, title := some "T", width := 800 } :=
  ⟨rfl, flamegraph_config_bundle _ ⟨false, ["f"]⟩ rfl⟩

/-- Modelled from the spec: the effective `ThresholdPolicy` produced by
`ThresholdResolver` — a per-metric (Gas, HostIOCalls, HotPaths) percent
threshold, each independently nullable (unset means the metric is not
checked).  Percent values are embedded as exact rationals. -/
structure ThresholdPolicy where
  gas : Option ℚ
  hostio : Option ℚ
  hot_paths : Option ℚ
deriving DecidableEq

/-- Modelled from the spec: the threshold file's per-metric values, the base
layer of the precedence stack. -/
structure FileConfig where
  gas : Option ℚ
  hostio : Option ℚ
  hot_paths : Option ℚ
deriving DecidableEq

/-- Modelled from the spec: `ConfigError`, raised for a threshold value
outside `[0, 100000]` percent. -/
inductive ConfigError where
  | outOfRange
deriving DecidableEq

/-- A provided threshold value is valid when it lies in `[0, 100000]`. -/
def thresholdInRange : Option ℚ → Bool
  | none => true
  | some q => decide (0 ≤ q) && decide (q ≤ 100000)

/-- Modelled from the spec: `ThresholdResolver.resolve(file_config, cli_flags)`.
Layered overrides: built-in defaults (all unset), then file values, then the
blanket percent flag onto any metric still unset, then any metric-specific
flag unconditionally — and if a metric-specific flag is present the metrics
without such a flag are force-disabled (focused-regression mode).  Fails with
`ConfigError` on any out-of-range value. -/
def resolve_thresholds (file : FileConfig)
    (threshold_percent gas_flag hostio_flag : Option ℚ) :
    Except ConfigError ThresholdPolicy :=
  if thresholdInRange file.gas && thresholdInRange file.hostio &&
      thresholdInRange file.hot_paths && thresholdInRange threshold_percent &&
      thresholdInRange gas_flag && thresholdInRange hostio_flag then
    if gas_flag.isSome || hostio_flag.isSome then
      .ok { gas := gas_flag, hostio := hostio_flag, hot_paths := none }
    else
      .ok { gas := file.gas.orElse (fun _ => threshold_percent)
            hostio := file.hostio.orElse (fun _ => threshold_percent)
            hot_paths := file.hot_paths.orElse (fun _ => threshold_percent) }
  else .error .outOfRange

theorem thresholdInRange_nonneg (o : Option ℚ) (ho : thresholdInRange o = true)
    (q : ℚ) (hq : o = some q) : 0 ≤ q := by
  subst hq
  simp [thresholdInRange] at ho
  exact ho.1

theorem orElse_eq_some (a b : Option ℚ) (q : ℚ)
    (h : (a.orElse fun _ => b) = some q) : a = some q ∨ b = some q := by
  cases a <;> simp [Option.orElse] at h <;> simp [h]

/-- Every threshold a successfully resolved policy carries is nonnegative. -/
theorem resolve_thresholds_nonneg (file : FileConfig) (bl gf hf : Option ℚ)
    (pol : ThresholdPolicy) (hres : resolve_thresholds file bl gf hf = .ok pol) :
    (∀ q, pol.gas = some q → 0 ≤ q) ∧ (∀ q, pol.hostio = some q → 0 ≤ q) ∧
      (∀ q, pol.hot_paths = some q → 0 ≤ q) := by
  unfold resolve_thresholds at hres
  split at hres
  case isTrue hok =>
    simp only [Bool.and_eq_true] at hok
    obtain ⟨⟨⟨⟨⟨h1, h2⟩, h3⟩, h4⟩, h5⟩, h6⟩ := hok
    split at hres
    · injection hres with hpol
      subst hpol
      refine ⟨fun q hq => thresholdInRange_nonneg _ h5 q hq,
        fun q hq => thresholdInRange_nonneg _ h6 q hq, fun q hq => by cases hq⟩
    · injection hres with hpol
      subst hpol
      refine ⟨fun q hq => ?_, fun q hq => ?_, fun q hq => ?_⟩
      · rcases orElse_eq_some _ _ _ hq with h | h
        · exact thresholdInRange_nonneg _ h1 q h
        · exact thresholdInRange_nonneg _ h4 q h
      · rcases orElse_eq_some _ _ _ hq with h | h
        · exact thresholdInRange_nonneg _ h2 q h
        · exact thresholdInRange_nonneg _ h4 q h
      · rcases orElse_eq_some _ _ _ hq with h | h
        · exact thresholdInRange_nonneg _ h3 q h
        · exact thresholdInRange_nonneg _ h4 q h
  case isFalse => cases hres

/-- C1: a metric-specific threshold flag puts the resolver into
focused-regression mode — with `--gas-threshold` supplied (and no HostIO
flag), only Gas carries a threshold and HostIO and HotPaths checking is
disabled, whatever the file and blanket-percent settings; symmetrically for
`--hostio-threshold`. -/
theorem metric_flag_focus :
    (∀ (file : FileConfig) (blanket : Option ℚ) (g : ℚ) (pol : ThresholdPolicy),
        resolve_thresholds file blanket (some g) none = .ok pol →
          pol.gas = some g ∧ pol.hostio = none ∧ pol.hot_paths = none) ∧
      (∀ (file : FileConfig) (blanket : Option ℚ) (hq : ℚ) (pol : ThresholdPolicy),
        resolve_thresholds file blanket none (some hq) = .ok pol →
          pol.hostio = some hq ∧ pol.gas = none ∧ pol.hot_paths = none) := by
  constructor <;>
    · intro file blanket v pol hres
      obtain ⟨pg, ph, pp⟩ := pol
      unfold resolve_thresholds at hres
      split at hres
      · simp at hres
        obtain ⟨rfl, rfl, rfl⟩ := hres
        exact ⟨rfl, rfl, rfl⟩
      · cases hres

/-- Witness for C1: a file providing all three thresholds and a blanket
percent are all overridden by `--gas-threshold 7`. -/
theorem metric_flag_focus_witness :
    resolve_thresholds ⟨some 1, some 2, some 3⟩ (some 4) (some 7) none =
        .ok ⟨some 7, none, none⟩ ∧
      ((ThresholdPolicy.mk (some 7) none none).gas = some 7 ∧
        (ThresholdPolicy.mk (some 7) none none).hostio = none ∧
        (ThresholdPolicy.mk (some 7) none none).hot_paths = none) :=
  ⟨by rfl, metric_flag_focus.1 ⟨some 1, some 2, some 3⟩ (some 4) 7 _ (by rfl)⟩

/-- Modelled from the spec: the cost metrics of a profile. -/
inductive PerfMetric where
  | gas
  | ink
  | hostio
  | hotPaths
deriving DecidableEq

/-- Modelled from the spec: a ranked root-to-node chain of a profile. -/
structure HotPath where
  node_path : List String
  metric_value : Nat
  rank : Nat
deriving DecidableEq

/-- Modelled from the spec: one call-tree node, with label, ordered children,
self and memoized cumulative costs (Ink nullable, meaning "not measured"),
subtree HostIO crossing count and collapsed call count. -/
inductive ProfileNode : Type where
  | mk (label : String) (children : List ProfileNode) (self_gas : Nat)
      (self_ink : Option Nat) (cumulative_gas : Nat) (cumulative_ink : Option Nat)
      (hostio_count : Nat) (call_count : Nat)

def ProfileNode.label : ProfileNode → String
  | .mk l _ _ _ _ _ _ _ => l

def ProfileNode.children : ProfileNode → List ProfileNode
  | .mk _ cs _ _ _ _ _ _ => cs

def ProfileNode.self_gas : ProfileNode → Nat
  | .mk _ _ sg _ _ _ _ _ => sg

def ProfileNode.self_ink : ProfileNode → Option Nat
  | .mk _ _ _ si _ _ _ _ => si

def ProfileNode.cumulative_gas : ProfileNode → Nat
  | .mk _ _ _ _ cg _ _ _ => cg

def ProfileNode.cumulative_ink : ProfileNode → Option Nat
  | .mk _ _ _ _ _ ci _ _ => ci

def ProfileNode.hostio_count : ProfileNode → Nat
  | .mk _ _ _ _ _ _ hc _ => hc

def ProfileNode.call_count : ProfileNode → Nat
  | .mk _ _ _ _ _ _ _ cc => cc

/-- Modelled from the spec: the serializable representation of a finished
profile. -/
structure ProfileModel where
  root : ProfileNode
  transaction_hash : String
  tracer_name : String
  total_gas : Nat
  total_ink : Option Nat
  total_hostio_calls : Nat
  hot_paths : List HotPath

/-- Modelled from the spec: one whole-profile metric delta of a `DiffResult`;
`divergent` records the reported-not-fatal `DivergentBaselineError` ("infinite
increase": baseline zero, target nonzero). -/
structure MetricDelta where
  metric : PerfMetric
  baseline_value : Nat
  target_value : Nat
  percent_change : ℚ
  divergent : Bool
deriving DecidableEq

/-- Modelled from the spec: one fired regression of a `DiffResult`. -/
structure Regression where
  metric : PerfMetric
  observed_percent_change : ℚ
  threshold : ℚ
deriving DecidableEq

/-- Modelled from the spec: the pass/fail regression verdict. -/
inductive Verdict where
  | pass
  | fail
deriving DecidableEq

/-- Modelled from the spec: a hot-path difference — a path new in the
target's top-N, or one present in both whose cost shifted beyond the HotPaths
threshold. -/
structure HotPathDelta where
  node_path : List String
  is_new : Bool
  percent_change : ℚ
deriving DecidableEq

/-- Modelled from the spec: the structured output of `DiffEngine.diff`. -/
structure DiffResult where
  metric_deltas : List MetricDelta
  hot_path_deltas : List HotPathDelta
  regressions : List Regression
  overall_verdict : Verdict

/-- Modelled from the spec: `percent_change = (target - baseline) / baseline
* 100`, with the convention that it is 0 when the baseline is zero (the
nonzero-target case is flagged separately as divergent). -/
def percentChange (b t : Nat) : ℚ :=
  if b = 0 then 0 else ((t : ℚ) - (b : ℚ)) / (b : ℚ) * 100

/-- Modelled from the spec: the divergent-baseline condition (baseline zero,
target nonzero). -/
def divergentBaseline (b t : Nat) : Bool := b == 0 && t != 0

/-- Builds one whole-profile metric delta. -/
def mkMetricDelta (m : PerfMetric) (b t : Nat) : MetricDelta :=
  { metric := m, baseline_value := b, target_value := t,
    percent_change := percentChange b t, divergent := divergentBaseline b t }

/-- The Ink delta, present only when both profiles measured Ink (null means
"not measured", never zero). -/
def inkDelta (b t : Option Nat) : List MetricDelta :=
  match b, t with
  | some bi, some ti => [mkMetricDelta .ink bi ti]
  | _, _ => []

/-- Modelled from the spec: the whole-profile (`total_*`) metric deltas for
Gas, Ink and HostIOCalls. -/
def diffMetricDeltas (base target : ProfileModel) : List MetricDelta :=
  [mkMetricDelta .gas base.total_gas target.total_gas] ++
    inkDelta base.total_ink target.total_ink ++
    [mkMetricDelta .hostio base.total_hostio_calls target.total_hostio_calls]

/-- The threshold the resolved policy assigns to a metric; the policy carries
no Ink threshold, so Ink deltas are reported but never classified. -/
def thresholdFor (pol : ThresholdPolicy) : PerfMetric → Option ℚ
  | .gas => pol.gas
  | .ink => none
  | .hostio => pol.hostio
  | .hotPaths => pol.hot_paths

/-- Modelled from the spec: a metric delta is a `Regression` only if its
threshold is set and it is divergent or its percent change exceeds the
threshold; unset thresholds never produce regressions. -/
def classifyDelta (pol : ThresholdPolicy) (d : MetricDelta) : Option Regression :=
  match thresholdFor pol d.metric with
  | none => none
  | some q =>
    if d.divergent || decide (q < d.percent_change) then
      some ⟨d.metric, d.percent_change, q⟩
    else none

/-- Modelled from the spec: paths in the target's top-N absent from the
baseline's (always reported). -/
def newHotPaths (base target : ProfileModel) : List HotPath :=
  target.hot_paths.filter (fun tp =>
    !(base.hot_paths.any (fun bp => bp.node_path == tp.node_path)))

/-- Modelled from the spec: paths present in both top-N lists (aligned by
label sequence) whose cost moved beyond the HotPaths threshold. -/
def shiftedHotPaths (q : ℚ) (base target : ProfileModel) : List HotPathDelta :=
  target.hot_paths.filterMap (fun tp =>
    match base.hot_paths.find? (fun bp => bp.node_path == tp.node_path) with
    | some bp =>
      if divergentBaseline bp.metric_value tp.metric_value ||
          decide (q < percentChange bp.metric_value tp.metric_value) then
        some ⟨tp.node_path, false, percentChange bp.metric_value tp.metric_value⟩
      else none
    | none => none)

/-- The regressions of a comparison: classified metric deltas, plus a
HotPaths regression per shifted hot path when the HotPaths threshold is set. -/
def diffRegressions (base target : ProfileModel) (pol : ThresholdPolicy) : List Regression :=
  (diffMetricDeltas base target).filterMap (classifyDelta pol) ++
    (match pol.hot_paths with
      | none => []
      | some q => (shiftedHotPaths q base target).map
          (fun d => Regression.mk .hotPaths d.percent_change q))

/-- Modelled from the spec: `DiffEngine.diff(baseline, target, policy)` —
align, compute deltas, classify, aggregate verdict; `overall_verdict = Fail`
iff `regressions` is non-empty. -/
def DiffEngine.diff (base target : ProfileModel) (pol : ThresholdPolicy) : DiffResult :=
  { metric_deltas := diffMetricDeltas base target
    hot_path_deltas :=
      (newHotPaths base target).map (fun hp => HotPathDelta.mk hp.node_path true 0) ++
        (match pol.hot_paths with
          | none => []
          | some q => shiftedHotPaths q base target)
    regressions := diffRegressions base target pol
    overall_verdict := if (diffRegressions base target pol).isEmpty then .pass else .fail }

theorem percentChange_self (b : Nat) : percentChange b b = 0 := by
  rw [percentChange]
  split
  · rfl
  · simp

theorem divergentBaseline_self (b : Nat) : divergentBaseline b b = false := by
  by_cases hb : b = 0 <;> simp [divergentBaseline, hb]

theorem mkMetricDelta_spec (m : PerfMetric) (b t : Nat) :
    ((mkMetricDelta m b t).baseline_value ≠ 0 →
      (mkMetricDelta m b t).percent_change =
        (((mkMetricDelta m b t).target_value : ℚ) - ((mkMetricDelta m b t).baseline_value : ℚ)) /
          ((mkMetricDelta m b t).baseline_value : ℚ) * 100) ∧
      ((mkMetricDelta m b t).baseline_value = 0 → (mkMetricDelta m b t).target_value = 0 →
        (mkMetricDelta m b t).percent_change = 0) := by
  constructor
  · intro hb
    simp only [mkMetricDelta] at hb ⊢
    rw [percentChange, if_neg hb]
  · intro hb ht
    simp only [mkMetricDelta] at hb ht ⊢
    subst hb
    subst ht
    rfl

/-- C5: every whole-profile metric delta of a diff is computed from the
`total_*` values as `(target - baseline) / baseline * 100` percent, and is 0
when baseline and target are both zero; the Gas and HostIOCalls deltas are
always present at the `total_*` level, and the Ink delta whenever both
profiles measured Ink. -/
theorem metric_deltas_formula (base target : ProfileModel) (pol : ThresholdPolicy) :
    (∀ d ∈ (DiffEngine.diff base target pol).metric_deltas,
        (d.baseline_value ≠ 0 →
          d.percent_change =
            ((d.target_value : ℚ) - (d.baseline_value : ℚ)) / (d.baseline_value : ℚ) * 100) ∧
          (d.baseline_value = 0 → d.target_value = 0 → d.percent_change = 0)) ∧
      mkMetricDelta .gas base.total_gas target.total_gas ∈
        (DiffEngine.diff base target pol).metric_deltas ∧
      mkMetricDelta .hostio base.total_hostio_calls target.total_hostio_calls ∈
        (DiffEngine.diff base target pol).metric_deltas ∧
      (∀ bi ti, base.total_ink = some bi → target.total_ink = some ti →
        mkMetricDelta .ink bi ti ∈ (DiffEngine.diff base target pol).metric_deltas) := by
  refine ⟨?_, ?_, ?_, ?_⟩
  · intro d hd
    have hd' : d ∈ diffMetricDeltas base target := hd
    rw [diffMetricDeltas] at hd'
    rcases hbi : base.total_ink with _ | bi <;> rcases hti : target.total_ink with _ | ti <;>
      rw [hbi, hti] at hd' <;>
      simp only [inkDelta, List.mem_append, List.mem_singleton, List.mem_cons,
        List.not_mem_nil, or_false, false_or] at hd'
    · rcases hd' with rfl | rfl <;> exact mkMetricDelta_spec _ _ _
    · rcases hd' with rfl | rfl <;> exact mkMetricDelta_spec _ _ _
    · rcases hd' with rfl | rfl <;> exact mkMetricDelta_spec _ _ _
    · rcases hd' with (rfl | rfl) | rfl <;> exact mkMetricDelta_spec _ _ _
  · show mkMetricDelta .gas base.total_gas target.total_gas ∈ diffMetricDeltas base target
    rw [diffMetricDeltas]
    simp
  · show mkMetricDelta .hostio base.total_hostio_calls target.total_hostio_calls ∈
      diffMetricDeltas base target
    rw [diffMetricDeltas]
    simp
  · intro bi ti hbi hti
    show mkMetricDelta .ink bi ti ∈ diffMetricDeltas base target
    rw [diffMetricDeltas, hbi, hti]
    simp [inkDelta]

/-- A sample baseline profile used by concrete witnesses. -/
def sampleBase : ProfileModel :=
  ⟨.mk "transaction" [] 0 none 0 none 0 1, "0xbase", "stylusTracer", 100, some 50, 5, []⟩

/-- A sample target profile used by concrete witnesses. -/
def sampleTarget : ProfileModel :=
  ⟨.mk "transaction" [] 0 none 0 none 0 1, "0xtarget", "stylusTracer", 300, some 80, 7, []⟩

/-- Witness for C5: the Gas delta of a concrete comparison (baseline 100,
target 300) is present and obeys the percent-change formula. -/
theorem metric_deltas_formula_witness :
    mkMetricDelta PerfMetric.gas 100 300 ∈
        (DiffEngine.diff sampleBase sampleTarget ⟨none, none, none⟩).metric_deltas ∧
      ((mkMetricDelta PerfMetric.gas 100 300).baseline_value ≠ 0 →
        (mkMetricDelta PerfMetric.gas 100 300).percent_change =
          (((mkMetricDelta PerfMetric.gas 100 300).target_value : ℚ) -
              ((mkMetricDelta PerfMetric.gas 100 300).baseline_value : ℚ)) /
            ((mkMetricDelta PerfMetric.gas 100 300).baseline_value : ℚ) * 100) ∧
      ((mkMetricDelta PerfMetric.gas 100 300).baseline_value = 0 →
        (mkMetricDelta PerfMetric.gas 100 300).target_value = 0 →
        (mkMetricDelta PerfMetric.gas 100 300).percent_change = 0) :=
  ⟨(metric_deltas_formula sampleBase sampleTarget ⟨none, none, none⟩).2.1,
    ((metric_deltas_formula sampleBase sampleTarget ⟨none, none, none⟩).1 _
      ((metric_deltas_formula sampleBase sampleTarget ⟨none, none, none⟩).2.1)).1,
    ((metric_deltas_formula sampleBase sampleTarget ⟨none, none, none⟩).1 _
      ((metric_deltas_formula sampleBase sampleTarget ⟨none, none, none⟩).2.1)).2⟩

theorem find?_self_path (l : List HotPath)
    (hdist : l.Pairwise (fun a b => a.node_path ≠ b.node_path))
    (tp : HotPath) (htp : tp ∈ l) :
    l.find? (fun bp => bp.node_path == tp.node_path) = some tp := by
  induction l with
  | nil => cases htp
  | cons hd tl ih =>
    rcases List.pairwise_cons.mp hdist with ⟨hhd, htl⟩
    rcases List.mem_cons.mp htp with rfl | hmem
    · rw [List.find?_cons_of_pos _ (by simp)]
    · rw [List.find?_cons_of_neg _ (by simp [hhd tp hmem])]
      exact ih htl hmem

theorem shiftedHotPaths_self (q : ℚ) (hq : 0 ≤ q) (p : ProfileModel)
    (hdist : p.hot_paths.Pairwise (fun a b => a.node_path ≠ b.node_path)) :
    shiftedHotPaths q p p = [] := by
  unfold shiftedHotPaths
  rw [List.filterMap_eq_nil_iff]
  intro tp htp
  rw [find?_self_path p.hot_paths hdist tp htp]
  simp [divergentBaseline_self, percentChange_self, not_lt.mpr hq]

theorem classifyDelta_self_none (pol : ThresholdPolicy)
    (hnn : ∀ m q, thresholdFor pol m = some q → 0 ≤ q)
    (d : MetricDelta) (hdiv : d.divergent = false) (hpc : d.percent_change = 0) :
    classifyDelta pol d = none := by
  unfold classifyDelta
  cases hm : thresholdFor pol d.metric with
  | none => rfl
  | some q =>
    have h0 : 0 ≤ q := hnn _ _ hm
    simp [hdiv, hpc, not_lt.mpr h0]

theorem diffMetricDeltas_self (p : ProfileModel) (d : MetricDelta)
    (hd : d ∈ diffMetricDeltas p p) : d.percent_change = 0 ∧ d.divergent = false := by
  rw [diffMetricDeltas] at hd
  rcases hpi : p.total_ink with _ | bi <;> rw [hpi] at hd <;>
    simp only [inkDelta, List.mem_append, List.mem_singleton, List.mem_cons,
      List.not_mem_nil, or_false, false_or] at hd
  · rcases hd with rfl | rfl <;> exact ⟨percentChange_self _, divergentBaseline_self _⟩
  · rcases hd with (rfl | rfl) | rfl <;> exact ⟨percentChange_self _, divergentBaseline_self _⟩

/-- C4: diffing a profile against itself, under any successfully resolved
threshold policy (the hot-path list of a profile holds pairwise-distinct
paths, as `HotPathExtractor` guarantees), yields `overall_verdict = Pass`
and percent change 0 on every metric delta. -/
theorem self_diff_pass (p : ProfileModel) (file : FileConfig) (bl gf hf : Option ℚ)
    (pol : ThresholdPolicy) (hres : resolve_thresholds file bl gf hf = .ok pol)
    (hdist : p.hot_paths.Pairwise (fun a b => a.node_path ≠ b.node_path)) :
    (DiffEngine.diff p p pol).overall_verdict = Verdict.pass ∧
      ∀ d ∈ (DiffEngine.diff p p pol).metric_deltas, d.percent_change = 0 := by
  have hnn := resolve_thresholds_nonneg file bl gf hf pol hres
  have hnn' : ∀ m q, thresholdFor pol m = some q → 0 ≤ q := by
    intro m q hm
    cases m
    · exact hnn.1 q hm
    · simp [thresholdFor] at hm
    · exact hnn.2.1 q hm
    · exact hnn.2.2 q hm
  have hregs : diffRegressions p p pol = [] := by
    rw [diffRegressions]
    have h1 : (diffMetricDeltas p p).filterMap (classifyDelta pol) = [] := by
      rw [List.filterMap_eq_nil_iff]
      intro d hd
      obtain ⟨hpc, hdiv⟩ := diffMetricDeltas_self p d hd
      exact classifyDelta_self_none pol hnn' d hdiv hpc
    rw [h1]
    cases hhp : pol.hot_paths with
    | none => rfl
    | some q =>
      have hq0 : 0 ≤ q := hnn' .hotPaths q (by simpa [thresholdFor] using hhp)
      have hs := shiftedHotPaths_self q hq0 p hdist
      simp [hs]
  refine ⟨?_, fun d hd => (diffMetricDeltas_self p d hd).1⟩
  show (if (diffRegressions p p pol).isEmpty then Verdict.pass else Verdict.fail) = Verdict.pass
  rw [hregs]
  rfl

/-- A sample profile with one hot path, used by the self-diff witness. -/
def sampleSelf : ProfileModel :=
  ⟨.mk "transaction" [] 0 none 0 none 0 1, "0xself", "stylusTracer", 100, none, 5,
    [⟨["transaction", "foo"], 10, 1⟩]⟩

/-- Witness for C4 at a concrete profile and a concretely resolved policy. -/
theorem self_diff_pass_witness :
    resolve_thresholds ⟨none, none, none⟩ (some 5) none none =
        .ok ⟨some 5, some 5, some 5⟩ ∧
      sampleSelf.hot_paths.Pairwise (fun a b => a.node_path ≠ b.node_path) ∧
      ((DiffEngine.diff sampleSelf sampleSelf ⟨some 5, some 5, some 5⟩).overall_verdict =
          Verdict.pass ∧
        ∀ d ∈ (DiffEngine.diff sampleSelf sampleSelf ⟨some 5, some 5, some 5⟩).metric_deltas,
          d.percent_change = 0) :=
  ⟨by rfl, by simp [sampleSelf],
    self_diff_pass sampleSelf ⟨none, none, none⟩ (some 5) none none
      ⟨some 5, some 5, some 5⟩ (by rfl) (by simp [sampleSelf])⟩

/-- Modelled from the spec: the kinds of normalized trace events. -/
inductive TraceEventKind where
  | callEnter
  | callExit
  | hostioEnter
  | hostioExit
deriving DecidableEq

/-- Modelled from the spec: one normalized, typed trace event (Ink cost
nullable — absent means "not measured", never zero). -/
structure TraceEvent where
  kind : TraceEventKind
  label : String
  gas_cost : Nat
  ink_cost : Option Nat
  sequence_index : Nat
deriving DecidableEq

/-- Combines nullable Ink amounts: "not measured" propagates as null. -/
def addInk : Option Nat → Option Nat → Option Nat
  | some a, some b => some (a + b)
  | _, _ => none

/-- Modelled from the spec: `UnbalancedTraceError`, the builder's fatal error
for a structural enter/exit mismatch. -/
inductive BuildError where
  | unbalancedTrace
deriving DecidableEq

/-- An in-progress node on the builder's explicit stack. -/
structure Frame where
  label : String
  children : List ProfileNode
  self_gas : Nat
  self_ink : Option Nat
  hostio_count : Nat
  call_count : Nat

/-- A fresh frame opened by a CallEnter. -/
def Frame.fresh (lbl : String) (g : Nat) (i : Option Nat) : Frame :=
  ⟨lbl, [], g, i, 0, 1⟩

/-- Closes a finished frame into a tree node (cumulative metrics are filled
in by the post-order pass). -/
def closeFrame (f : Frame) : ProfileNode :=
  .mk f.label f.children f.self_gas f.self_ink 0 none f.hostio_count f.call_count

/-- Reopens the immediately preceding sibling for a consecutive recursive
self-call, keeping its accumulated metrics. -/
def reopenNode : ProfileNode → Frame
  | .mk l cs sg si _ _ hc cc => ⟨l, cs, sg, si, hc, cc⟩

/-- Modelled from the spec, CallEnter: push a new child frame onto the stack,
unless the immediately preceding sibling bears the identical label, in which
case that sibling is re-entered with its `call_count` incremented instead of
creating a duplicate node. -/
def stepEnter (st : List Frame) (lbl : String) (g : Nat) (i : Option Nat) : List Frame :=
  match st with
  | [] => []
  | top :: rest =>
    match top.children.getLast? with
    | some lastChild =>
      if lastChild.label = lbl then
        let f := reopenNode lastChild
        { f with
          call_count := f.call_count + 1
          self_gas := f.self_gas + g
          self_ink := addInk f.self_ink i } ::
          { top with children := top.children.dropLast } :: rest
      else Frame.fresh lbl g i :: top :: rest
    | none => Frame.fresh lbl g i :: top :: rest

/-- Modelled from the spec, HostIOEnter/Exit: the cost is attributed to the
self metrics of the current top-of-stack node and each span increments its
`hostio_count` on the enter; HostIO spans never become tree nodes. -/
def stepHostio (st : List Frame) (g : Nat) (i : Option Nat) (isEnter : Bool) : List Frame :=
  match st with
  | [] => []
  | top :: rest =>
    { top with
      self_gas := top.self_gas + g
      self_ink := addInk top.self_ink i
      hostio_count := top.hostio_count + (if isEnter then 1 else 0) } :: rest

/-- The builder's event loop over its explicit stack: a CallExit pops the
stack and folds the finished node into its parent's children, failing with
`UnbalancedTraceError` when only the synthetic root remains. -/
def buildGo : List TraceEvent → List Frame → Except BuildError (List Frame)
  | [], st => .ok st
  | e :: es, st =>
    match e.kind with
    | .callEnter => buildGo es (stepEnter st e.label e.gas_cost e.ink_cost)
    | .callExit =>
      match st with
      | top :: parent :: rest =>
        buildGo es
          ({ parent with
              children := parent.children ++
                [closeFrame { top with
                  self_gas := top.self_gas + e.gas_cost
                  self_ink := addInk top.self_ink e.ink_cost }] } :: rest)
      | _ => .error .unbalancedTrace
    | .hostioEnter => buildGo es (stepHostio st e.gas_cost e.ink_cost true)
    | .hostioExit => buildGo es (stepHostio st e.gas_cost e.ink_cost false)

/-- Sum of the children's memoized cumulative gas. -/
def sumCumGas (cs : List ProfileNode) : Nat :=
  cs.foldr (fun n acc => n.cumulative_gas + acc) 0

/-- Sum of the children's memoized cumulative Ink (null propagates). -/
def sumCumInk (cs : List ProfileNode) : Option Nat :=
  cs.foldr (fun n acc => addInk n.cumulative_ink acc) (some 0)

/-- Sum of the children's subtree HostIO counts. -/
def sumHostio (cs : List ProfileNode) : Nat :=
  cs.foldr (fun n acc => n.hostio_count + acc) 0

mutual
/-- Modelled from the spec: the post-order pass computing cumulative metrics
bottom-up after the stream is consumed (and rolling the subtree HostIO count
up into each node). -/
def computeCum : ProfileNode → ProfileNode
  | .mk l cs sg si _ _ hc cc =>
    let cs2 := computeCumList cs
    .mk l cs2 sg si (sg + sumCumGas cs2) (addInk si (sumCumInk cs2))
      (hc + sumHostio cs2) cc

/-- The post-order pass over a child list. -/
def computeCumList : List ProfileNode → List ProfileNode
  | [] => []
  | n :: ns => computeCum n :: computeCumList ns
end

/-- The synthetic root frame representing the whole transaction. -/
def rootFrame : Frame := ⟨"transaction", [], 0, some 0, 0, 1⟩

/-- Modelled from the spec: `ProfileBuilder.build(events)` — reconstructs the
call tree over an explicit stack rooted at a synthetic top-level node, fails
with `UnbalancedTraceError` on exit underflow or a non-empty stack at end of
stream, then runs the post-order cumulative pass and assembles the
`ProfileModel` (hot paths are a computed, non-authoritative field; the
builder leaves the list empty).  An `Except.error` result carries no data:
a partial profile is never returned. -/
def ProfileBuilder.build (tx_hash tracer : String) (events : List TraceEvent) :
    Except BuildError ProfileModel :=
  match buildGo events [rootFrame] with
  | .error e => .error e
  | .ok [f] =>
    let root := computeCum (closeFrame f)
    .ok { root := root, transaction_hash := tx_hash, tracer_name := tracer,
          total_gas := root.cumulative_gas, total_ink := root.cumulative_ink,
          total_hostio_calls := root.hostio_count, hot_paths := [] }
  | .ok _ => .error .unbalancedTrace

/-- The call-nesting depth scan: `none` when a CallExit underflows, otherwise
the final depth.  A stream has a dangling CallEnter or an excess CallExit
exactly when the scan from depth 0 does not end at depth 0. -/
def callDepthScan : List TraceEvent → Nat → Option Nat
  | [], d => some d
  | e :: es, d =>
    match e.kind with
    | .callEnter => callDepthScan es (d + 1)
    | .callExit => if d = 0 then none else callDepthScan es (d - 1)
    | .hostioEnter => callDepthScan es d
    | .hostioExit => callDepthScan es d

theorem stepEnter_length (st : List Frame) (hne : st ≠ []) (lbl : String) (g : Nat)
    (i : Option Nat) : (stepEnter st lbl g i).length = st.length + 1 := by
  match st with
  | [] => exact absurd rfl hne
  | top :: rest =>
    rw [stepEnter]
    split
    · split <;> simp
    · simp

theorem stepHostio_length (st : List Frame) (hne : st ≠ []) (g : Nat) (i : Option Nat)
    (isEnter : Bool) : (stepHostio st g i isEnter).length = st.length := by
  match st with
  | [] => exact absurd rfl hne
  | top :: rest =>
    rw [stepHostio]
    simp

theorem buildGo_scan (events : List TraceEvent) :
    ∀ (st : List Frame) (d : Nat), st.length = d + 1 →
      (callDepthScan events d = none → buildGo events st = .error .unbalancedTrace) ∧
        (∀ d2, callDepthScan events d = some d2 →
          ∃ st2, buildGo events st = .ok st2 ∧ st2.length = d2 + 1) := by
  induction events with
  | nil =>
    intro st d hlen
    constructor
    · intro h
      simp [callDepthScan] at h
    · intro d2 h
      simp only [callDepthScan, Option.some.injEq] at h
      subst h
      exact ⟨st, rfl, hlen⟩
  | cons e es ih =>
    intro st d hlen
    have hne : st ≠ [] := by
      intro h0
      rw [h0] at hlen
      simp at hlen
    rcases hk : e.kind
    case callEnter =>
      have hlen2 : (stepEnter st e.label e.gas_cost e.ink_cost).length = (d + 1) + 1 := by
        rw [stepEnter_length st hne, hlen]
      have hrec := ih _ _ hlen2
      constructor
      · intro hscan
        have hscan2 : callDepthScan es (d + 1) = none := by
          simpa only [callDepthScan, hk] using hscan
        simp only [buildGo, hk]
        exact hrec.1 hscan2
      · intro d2 hscan
        have hscan2 : callDepthScan es (d + 1) = some d2 := by
          simpa only [callDepthScan, hk] using hscan
        simp only [buildGo, hk]
        exact hrec.2 d2 hscan2
    case callExit =>
      rcases st with _ | ⟨top, _ | ⟨parent, rest⟩⟩
      · exact absurd rfl hne
      · have hd0 : d = 0 := by
          simp at hlen
          omega
        subst hd0
        constructor
        · intro _
          simp [buildGo, hk]
        · intro d2 hscan
          simp [callDepthScan, hk] at hscan
      · have hd : rest.length + 2 = d + 1 := by simpa using hlen
        have hd0 : d ≠ 0 := by omega
        have hlen2 : ∀ fr : Frame, (fr :: rest).length = (d - 1) + 1 := by
          intro fr
          simp
          omega
        constructor
        · intro hscan
          have hscan2 : callDepthScan es (d - 1) = none := by
            simp only [callDepthScan, hk, if_neg hd0] at hscan
            exact hscan
          simp only [buildGo, hk]
          exact (ih _ _ (hlen2 _)).1 hscan2
        · intro d2 hscan
          have hscan2 : callDepthScan es (d - 1) = some d2 := by
            simp only [callDepthScan, hk, if_neg hd0] at hscan
            exact hscan
          simp only [buildGo, hk]
          exact (ih _ _ (hlen2 _)).2 d2 hscan2
    case hostioEnter =>
      have hlen2 : (stepHostio st e.gas_cost e.ink_cost true).length = d + 1 := by
        rw [stepHostio_length st hne, hlen]
      have hrec := ih _ _ hlen2
      constructor
      · intro hscan
        have hscan2 : callDepthScan es d = none := by
          simpa only [callDepthScan, hk] using hscan
        simp only [buildGo, hk]
        exact hrec.1 hscan2
      · intro d2 hscan
        have hscan2 : callDepthScan es d = some d2 := by
          simpa only [callDepthScan, hk] using hscan
        simp only [buildGo, hk]
        exact hrec.2 d2 hscan2
    case hostioExit =>
      have hlen2 : (stepHostio st e.gas_cost e.ink_cost false).length = d + 1 := by
        rw [stepHostio_length st hne, hlen]
      have hrec := ih _ _ hlen2
      constructor
      · intro hscan
        have hscan2 : callDepthScan es d = none := by
          simpa only [callDepthScan, hk] using hscan
        simp only [buildGo, hk]
        exact hrec.1 hscan2
      · intro d2 hscan
        have hscan2 : callDepthScan es d = some d2 := by
          simpa only [callDepthScan, hk] using hscan
        simp only [buildGo, hk]
        exact hrec.2 d2 hscan2

/-- C3: any event stream whose call enters and exits are unbalanced — a
CallEnter never closed by a matching CallExit, or a CallExit with no open
enter, i.e. the depth scan from zero does not end at zero — makes
`ProfileBuilder.build` fail with `UnbalancedTraceError`; the error result
carries no data, so no partial `ProfileModel` is returned. -/
theorem build_unbalanced (tx_hash tracer : String) (events : List TraceEvent)
    (h : callDepthScan events 0 ≠ some 0) :
    ProfileBuilder.build tx_hash tracer events = .error .unbalancedTrace := by
  have hmain := buildGo_scan events [rootFrame] 0 (by simp)
  unfold ProfileBuilder.build
  cases hscan : callDepthScan events 0 with
  | none =>
    rw [hmain.1 hscan]
  | some d2 =>
    have hd2 : d2 ≠ 0 := fun h0 => h (by rw [hscan, h0])
    obtain ⟨st2, hok, hlen⟩ := hmain.2 d2 hscan
    rw [hok]
    rcases st2 with _ | ⟨a, _ | ⟨b, r⟩⟩
    · rfl
    · exfalso
      simp at hlen
      exact hd2 (by omega)
    · rfl

/-- Witness for C3: a single unmatched CallEnter aborts the build with
`UnbalancedTraceError`. -/
theorem build_unbalanced_witness :
    callDepthScan [TraceEvent.mk .callEnter "user_entrypoint" 10 none 0] 0 ≠ some 0 ∧
      ProfileBuilder.build "0x1" "stylusTracer"
          [TraceEvent.mk .callEnter "user_entrypoint" 10 none 0] =
        .error .unbalancedTrace :=
  ⟨by decide, build_unbalanced _ _ _ (by decide)⟩

/-- Modelled from the spec: the error with which `execute_diff` surfaces a
Fail verdict, so that the diff command's exit code reflects
`overall_verdict` for CI gating. -/
inductive DiffExecError where
  | regressionDetected
deriving DecidableEq

/-- Modelled from the spec:
`stylus_trace_studio::commands::diff::execute_diff` on the two loaded
profiles and the resolved policy — runs the comparison and returns an error
exactly when the overall verdict is Fail. -/
def execute_diff (base target : ProfileModel) (pol : ThresholdPolicy) :
    Except DiffExecError DiffResult :=
  let result := DiffEngine.diff base target pol
  if result.overall_verdict = Verdict.fail then .error .regressionDetected
  else .ok result

/-- The error-propagation core of `handle_diff` in
`bin/stylus-trace/src/main.rs`: `execute_diff(...)?` forwards any failure and
otherwise returns `Ok(())`. -/
def handle_diff (base target : ProfileModel) (pol : ThresholdPolicy) :
    Except DiffExecError Unit :=
  match execute_diff base target pol with
  | .ok _ => .ok ()
  | .error err => .error err

/-- The process exit code produced by `main` returning `anyhow::Result`:
`Err` exits with code 1, `Ok` with 0. -/
def mainExitCode (r : Except DiffExecError Unit) : Nat :=
  match r with
  | .ok _ => 0
  | .error _ => 1

/-- C2: whenever the diff comparison's `overall_verdict` is Fail, the diff
command makes the process exit with a nonzero code. -/
theorem diff_fail_exits_nonzero (base target : ProfileModel) (pol : ThresholdPolicy)
    (h : (DiffEngine.diff base target pol).overall_verdict = Verdict.fail) :
    mainExitCode (handle_diff base target pol) ≠ 0 := by
  simp [mainExitCode, handle_diff, execute_diff, h]

/-- Witness for C2: baseline gas 100, target gas 300, gas threshold 5 — the
comparison fails and the process exit code is nonzero. -/
theorem diff_fail_exits_nonzero_witness :
    (DiffEngine.diff sampleBase sampleTarget ⟨some 5, none, none⟩).overall_verdict =
        Verdict.fail ∧
      mainExitCode (handle_diff sampleBase sampleTarget ⟨some 5, none, none⟩) ≠ 0 := by
  have hreg : diffRegressions sampleBase sampleTarget ⟨some 5, none, none⟩ =
      [⟨PerfMetric.gas, 200, 5⟩] := by
    have hpc : percentChange 100 300 = 200 := by
      rw [percentChange]
      norm_num
    norm_num [diffRegressions, diffMetricDeltas, inkDelta, sampleBase, sampleTarget,
      List.filterMap, classifyDelta, thresholdFor, mkMetricDelta, hpc,
      divergentBaseline]
  have hfail : (DiffEngine.diff sampleBase sampleTarget ⟨some 5, none, none⟩).overall_verdict =
      Verdict.fail := by
    show (if (diffRegressions sampleBase sampleTarget ⟨some 5, none, none⟩).isEmpty then
        Verdict.pass else Verdict.fail) = Verdict.fail
    rw [hreg]
    rfl
  exact ⟨hfail, diff_fail_exits_nonzero _ _ _ hfail⟩
